import Mathlib

/-!
Verification of the WebSocket client session layer (Go, `gorilla/websocket`
based).  The client (`Client` in the source) drives one outbound connection
through a connect / serve / retry-with-linear-backoff / give-up state
machine.  We shallowly embed the client as trace-producing functions:
the scheduler-visible behaviour of one execution of `Client.run`,
`Client.ping`, `Client.read`, `Client.Send`, `Client.Start`, `Client.Stop`
and `Client.closeConn` is modelled as a pure function from the environment
behaviour (dial outcomes, received messages, read errors, timer ticks,
cancellation points) to the list of observable events it emits, in order.
Durations are in nanoseconds (Go `time.Duration`), modelled as `Nat`.
-/

namespace WsClient

/-- One nanosecond unit; Go `time.Second` is `10^9` nanoseconds. -/
def second : Nat := 1000000000

/-- Embedding of `ClientConfig` (the fields the session logic reads;
the dial-target strings `Scheme`/`Host`/`Port`/`Path` and the header map
only feed the URL and handshake and are not needed by any claim). -/
structure ClientConfig where
  maxReadMessageSize : Nat
  readTimeout : Nat
  writeTimeout : Nat
  handshakeTimeout : Nat
  maxRetries : Nat
  retryInterval : Nat
  deriving Repr, DecidableEq

/-- Embedding of `NewClientConfig`: the defaults it hard-codes, with
`RetryInterval = time.Duration(retryInterval) * time.Second`. -/
def NewClientConfig (retryIntervalSec maxRetries : Nat) : ClientConfig :=
  { maxReadMessageSize := 10 * 1024 * 1024
    readTimeout := 60 * second
    writeTimeout := 10 * second
    handshakeTimeout := 10 * second
    maxRetries := maxRetries
    retryInterval := retryIntervalSec * second }

/-- Embedding of `ClientCallbacks`: for the control-flow model only the
presence of each handler matters (the Go struct holds `func` fields that
are `nil` when unset), so each field records whether the handler is
installed. -/
structure ClientCallbacks where
  started : Bool
  stopped : Bool
  onConnect : Bool
  onDisconnect : Bool
  onMessage : Bool
  onError : Bool
  deriving Repr, DecidableEq

/-- The all-unset callback struct: Go zero value `&ClientCallbacks{}`. -/
def ClientCallbacks.empty : ClientCallbacks :=
  { started := false, stopped := false, onConnect := false
    onDisconnect := false, onMessage := false, onError := false }

/-- Embedding of `NewClient`'s callback handling:
`if callback == nil { callback = &ClientCallbacks{} }`. -/
def NewClient (callback : Option ClientCallbacks) : ClientCallbacks :=
  match callback with
  | none => ClientCallbacks.empty
  | some cb => cb

/-- Errors the session can surface (identified by a numeric code where the
source carries a Go `error`). -/
inductive Err
  | dial (k : Nat)
  | maxRetriesExceeded (n : Nat)
  | readFail (k : Nat)
  | writeFail (k : Nat)
  deriving Repr, DecidableEq

/-- Observable events of one client session, in program order. -/
inductive Event
  | dialAttempt
  | cbStarted
  | cbStopped
  | cbOnConnect
  | cbOnDisconnect (e : Err)
  | cbOnMessage (m : List Nat)
  | cbOnError (e : Err)
  | setConn
  | setReadDeadline
  | closeFrameWrite
  | transportClose
  | wait (d : Nat)
  | cancelCtx
  | wgWait
  | pingWrite (payload : List Nat)
  deriving Repr, DecidableEq

/-- Embedding of `Client.closeConn`: when a connection is installed it
writes a close frame best-effort, closes the transport and clears the
pointer; on an already-cleared pointer it is a no-op.  Returns the new
connection slot and the emitted events. -/
def closeConn (conn : Option Unit) : Option Unit × List Event :=
  match conn with
  | none => (none, [])
  | some _ => (none, [Event.closeFrameWrite, Event.transportClose])

/-- Embedding of the success path of `Client.subscribe` after
`dialer.Dial` returned without error: fire `Started` if installed, install
the connection (`setConn`), set the read limit and read deadline, install
the pong handler, fire `OnConnect` if installed. -/
def subscribeOkEvents (cbs : ClientCallbacks) : List Event :=
  (if cbs.started then [Event.cbStarted] else []) ++
    [Event.setConn, Event.setReadDeadline] ++
    (if cbs.onConnect then [Event.cbOnConnect] else [])

/-- Embedding of `Client.read`: with no connection installed it returns at
once.  Otherwise it loops: each successfully read message is handed to
`OnMessage` when installed; on the first read error it fires
`OnDisconnect(err)` only when the lifecycle context is not yet cancelled
(`c.ctx.Err() == nil`) and the handler is installed, then returns.
`cancelled` records whether the context was cancelled by the time the read
loop observed the error (an explicit stop). -/
def read (cbs : ClientCallbacks) (conn : Option Unit) (msgs : List (List Nat))
    (cancelled : Bool) (e : Err) : List Event :=
  match conn with
  | none => []
  | some _ =>
      msgs.flatMap (fun m => if cbs.onMessage then [Event.cbOnMessage m] else []) ++
        (if !cancelled && cbs.onDisconnect then [Event.cbOnDisconnect e] else [])

/-- The serve phase of one successful connection inside `Client.run`: the
blocking `read` until it returns, then `closeConn` (line after the
if/else in `run`).  Returns the connection slot after the phase and the
events. -/
def serveConn (cbs : ClientCallbacks) (msgs : List (List Nat))
    (cancelled : Bool) (e : Err) : Option Unit × List Event :=
  let readEvs := read cbs (some ()) msgs cancelled e
  let (c2, closeEvs) := closeConn (some ())
  (c2, readEvs ++ closeEvs)

/-- One iteration's environment behaviour for `Client.run`: either the
dial fails with error code `k`, or it succeeds and the connection then
delivers `msgs` before the read loop ends with read error `k`;
`cancelled` is true when that read-loop exit is caused by the lifecycle
cancellation (explicit stop), in which case `run` returns at the top of
the next iteration. -/
inductive Episode
  | dialFail (k : Nat)
  | dialOk (msgs : List (List Nat)) (k : Nat) (cancelled : Bool)
  deriving Repr, DecidableEq

/-- Embedding of `Client.run` with current `retryCount = rc`, driven by the
episode list (an empty list stands for the cancellation being observed at
the top of the loop).  Mirrors the source: on dial failure fire
`OnError(err)`, increment `retryCount`; if it reached `MaxRetries` fire
`OnError(max retries exceeded)` and return; otherwise wait
`retryCount * RetryInterval` and continue.  On dial success reset
`retryCount` to 0, serve the connection, close it, and loop. -/
def runAux (cfg : ClientConfig) (cbs : ClientCallbacks) :
    Nat → List Episode → List Event
  | _, [] => []
  | rc, Episode.dialFail k :: rest =>
      Event.dialAttempt ::
        ((if cbs.onError then [Event.cbOnError (Err.dial k)] else []) ++
          (if rc + 1 ≥ cfg.maxRetries then
            (if cbs.onError then
              [Event.cbOnError (Err.maxRetriesExceeded cfg.maxRetries)] else [])
          else
            Event.wait ((rc + 1) * cfg.retryInterval) ::
              runAux cfg cbs (rc + 1) rest))
  | _rc, Episode.dialOk msgs k cancelled :: rest =>
      Event.dialAttempt ::
        (subscribeOkEvents cbs ++
          (serveConn cbs msgs cancelled (Err.readFail k)).2 ++
          (if cancelled then [] else runAux cfg cbs 0 rest))

/-- `Client.run` starts with `retryCount = 0` (Go zero value). -/
def run (cfg : ClientConfig) (cbs : ClientCallbacks) (es : List Episode) :
    List Event :=
  runAux cfg cbs 0 es

/-- Result of `Client.Send`. -/
inductive SendOutcome
  | notConnected
  | writeErr (k : Nat)
  | ok
  deriving Repr, DecidableEq

/-- Embedding of `Client.Send`: read the connection pointer under the
read lock; with no connection installed return the NotConnected error;
otherwise, under `writeMu`, set the write deadline and `WriteJSON` the
payload — its error (modelled by `writeResult = some k`) is returned
unchanged; on success clear the write deadline and return nil. -/
def Send (conn : Option Unit) (writeResult : Option Nat) : SendOutcome :=
  match conn with
  | none => SendOutcome.notConnected
  | some _ =>
      match writeResult with
      | some k => SendOutcome.writeErr k
      | none => SendOutcome.ok

/-- The one-shot flags of a `Client`: `startOnce` and `stopOnce`
(`sync.Once` values, consumed by the first call to `Start` / `Stop`). -/
structure ClientState where
  startOnceUsed : Bool
  stopOnceUsed : Bool
  deriving Repr, DecidableEq

/-- A freshly constructed `Client`: neither `sync.Once` consumed. -/
def ClientState.init : ClientState :=
  { startOnceUsed := false, stopOnceUsed := false }

/-- Embedding of `Client.Start`: `startOnce.Do` runs its body — which
spawns the `run` goroutine — only if the `sync.Once` has never fired.
Returns the new state and whether a `run` goroutine was spawned (a new
round of connection attempts begins exactly when this is `true`). -/
def Start (s : ClientState) : ClientState × Bool :=
  if s.startOnceUsed then (s, false)
  else ({ s with startOnceUsed := true }, true)

/-- Embedding of `Client.Stop`: `stopOnce.Do` runs its body only once:
cancel the lifecycle context, force-close the connection via `closeConn`,
wait on the `WaitGroup` for spawned goroutines, then fire `Stopped` if
installed.  Returns the new one-shot state, the connection slot, and the
emitted events. -/
def Stop (cbs : ClientCallbacks) (conn : Option Unit) (s : ClientState) :
    ClientState × Option Unit × List Event :=
  if s.stopOnceUsed then (s, conn, [])
  else
    let (c2, closeEvs) := closeConn conn
    ({ s with stopOnceUsed := true }, c2,
      Event.cancelCtx :: closeEvs ++ Event.wgWait ::
        (if cbs.stopped then [Event.cbStopped] else []))

/-- Ticker period of the keepalive sub-task:
`time.NewTicker(c.config.ReadTimeout / 2)` in `Client.ping`. -/
def pingPeriod (cfg : ClientConfig) : Nat := cfg.readTimeout / 2

/-- Embedding of the pong handler installed by `Client.subscribe`:
`conn.SetReadDeadline(time.Now().Add(c.config.ReadTimeout))` — given the
current time it returns the refreshed read deadline. -/
def pongHandler (cfg : ClientConfig) (now : Nat) : Nat :=
  now + cfg.readTimeout

/-- What the keepalive loop observes at each of its `select` rounds:
either the cancellation of its context, or a ticker tick with the current
connection slot and the outcome of `WriteControl` (`some k` = error). -/
inductive TickObs
  | ctxDone
  | tick (conn : Option Unit) (writeResult : Option Nat)
  deriving Repr, DecidableEq

/-- Embedding of `Client.ping`: on each tick, read the connection pointer;
when one is installed, write a protocol ping with `nil` payload (empty
list) under `writeMu`; on a write error fire `OnError` if installed and
return (ending the sub-task); otherwise keep looping.  Context
cancellation ends the loop with no event. -/
def ping (cbs : ClientCallbacks) : List TickObs → List Event
  | [] => []
  | TickObs.ctxDone :: _ => []
  | TickObs.tick none _ :: rest => ping cbs rest
  | TickObs.tick (some _) none :: rest => Event.pingWrite [] :: ping cbs rest
  | TickObs.tick (some _) (some k) :: _ =>
      Event.pingWrite [] ::
        (if cbs.onError then [Event.cbOnError (Err.writeFail k)] else [])

/-! ### Lock-discipline model for the frame-writing sites

Each function that writes a frame is transcribed as the sequence of lock
operations and frame writes it performs, so that "the write happens while
holding the write-serialization lock" becomes a checkable statement about
these traces. -/

/-- The two mutexes of `Client`: `writeMu` (write serialization) and `mu`
(the RW lock guarding the connection pointer). -/
inductive LockId
  | writeMu
  | connMu
  deriving Repr, DecidableEq

/-- Kinds of frames written on the wire. -/
inductive FrameKind
  | appMessage
  | pingFrame
  | closeFrame
  deriving Repr, DecidableEq

/-- Lock operations and frame writes, in program order. -/
inductive WEvent
  | acquire (l : LockId)
  | release (l : LockId)
  | write (f : FrameKind)
  deriving Repr, DecidableEq

/-- `Client.Send` write path: `writeMu.Lock()`, `WriteJSON` (one
application frame), deferred `writeMu.Unlock()`. -/
def sendWriteTrace : List WEvent :=
  [WEvent.acquire LockId.writeMu, WEvent.write FrameKind.appMessage,
    WEvent.release LockId.writeMu]

/-- `Client.ping` tick write path: `writeMu.Lock()`,
`WriteControl(PingMessage, ...)`, `writeMu.Unlock()`. -/
def pingWriteTrace : List WEvent :=
  [WEvent.acquire LockId.writeMu, WEvent.write FrameKind.pingFrame,
    WEvent.release LockId.writeMu]

/-- `Client.closeConn` write path: `c.mu.Lock()`,
`WriteMessage(CloseMessage, ...)`, `Close()`, deferred `c.mu.Unlock()` —
note it takes the connection-pointer mutex `mu`, not `writeMu`. -/
def closeConnWriteTrace : List WEvent :=
  [WEvent.acquire LockId.connMu, WEvent.write FrameKind.closeFrame,
    WEvent.release LockId.connMu]

/-- For each frame write in a trace, whether lock `l` is held at that
write (acquired and not yet released), given whether it is held at
entry. -/
def writesHolding (l : LockId) : List WEvent → Bool → List (FrameKind × Bool)
  | [], _ => []
  | WEvent.acquire l2 :: r, h =>
      writesHolding l r (if l2 = l then true else h)
  | WEvent.release l2 :: r, h =>
      writesHolding l r (if l2 = l then false else h)
  | WEvent.write f :: r, h => (f, h) :: writesHolding l r h

/-! ### Trace observations -/

/-- Is this event a dial attempt? -/
def Event.isDialAttempt : Event → Bool
  | Event.dialAttempt => true
  | _ => false

/-- Is this event the firing of the max-retries-exceeded error callback? -/
def Event.isMaxRetriesErr : Event → Bool
  | Event.cbOnError (Err.maxRetriesExceeded _) => true
  | _ => false

/-- Is this event the firing of the `Started` callback? -/
def Event.isStarted : Event → Bool
  | Event.cbStarted => true
  | _ => false

/-- Is this event the firing of the `Stopped` callback? -/
def Event.isStopped : Event → Bool
  | Event.cbStopped => true
  | _ => false

/-- The durations of the `wait` events of a trace, in order. -/
def waitDurations (evs : List Event) : List Nat :=
  evs.filterMap (fun ev =>
    match ev with
    | Event.wait d => some d
    | _ => none)

/-- Number of dial attempts in a trace. -/
def countAttempts (evs : List Event) : Nat :=
  evs.countP (fun ev => ev.isDialAttempt)

/-- Number of max-retries-exceeded error callbacks in a trace. -/
def countMaxRetriesErr (evs : List Event) : Nat :=
  evs.countP (fun ev => ev.isMaxRetriesErr)

/-- Number of `Started` callback firings in a trace. -/
def countStarted (evs : List Event) : Nat :=
  evs.countP (fun ev => ev.isStarted)

/-- Number of `Stopped` callback firings in a trace. -/
def countStopped (evs : List Event) : Nat :=
  evs.countP (fun ev => ev.isStopped)

/-- The six callback slots of `ClientCallbacks`. -/
inductive CbName
  | started
  | stopped
  | onConnect
  | onDisconnect
  | onMessage
  | onError
  deriving Repr, DecidableEq

/-- Whether a given callback slot holds an installed (non-nil) handler. -/
def cbInstalled (cbs : ClientCallbacks) : CbName → Bool
  | CbName.started => cbs.started
  | CbName.stopped => cbs.stopped
  | CbName.onConnect => cbs.onConnect
  | CbName.onDisconnect => cbs.onDisconnect
  | CbName.onMessage => cbs.onMessage
  | CbName.onError => cbs.onError

/-- Which callback, if any, an event invokes. -/
def Event.invokes : Event → Option CbName
  | Event.cbStarted => some CbName.started
  | Event.cbStopped => some CbName.stopped
  | Event.cbOnConnect => some CbName.onConnect
  | Event.cbOnDisconnect _ => some CbName.onDisconnect
  | Event.cbOnMessage _ => some CbName.onMessage
  | Event.cbOnError _ => some CbName.onError
  | _ => none

/-- Every callback invocation in the trace is of an installed handler
(no event ever calls a `nil` function). -/
def guardedInvokes (cbs : ClientCallbacks) (evs : List Event) : Bool :=
  evs.all (fun ev =>
    match ev.invokes with
    | none => true
    | some n => cbInstalled cbs n)

/-- Closed-form trace of a session whose dials all fail, starting from
`retryCount = rc` with `fuel = maxRetries - rc` attempts remaining: each
attempt fires the dial error, and between consecutive attempts the
session waits `(rc + attempt index) * retryInterval`; after the last
attempt it fires the max-retries-exceeded error instead and stops. -/
def failTraceFrom (cfg : ClientConfig) (cbs : ClientCallbacks) (k : Nat) :
    Nat → Nat → List Event
  | 0, _ => []
  | fuel + 1, rc =>
      Event.dialAttempt ::
        ((if cbs.onError then [Event.cbOnError (Err.dial k)] else []) ++
          (if fuel = 0 then
            (if cbs.onError then
              [Event.cbOnError (Err.maxRetriesExceeded cfg.maxRetries)] else [])
          else
            Event.wait ((rc + 1) * cfg.retryInterval) ::
              failTraceFrom cfg cbs k fuel (rc + 1)))

/-- A callback set with every handler installed. -/
def allCallbacks : ClientCallbacks :=
  { started := true, stopped := true, onConnect := true
    onDisconnect := true, onMessage := true, onError := true }

/-! ## Lemmas about the failing-dial trace -/

/-- On an all-failing dial schedule long enough to exhaust the retry
budget, `run` produces exactly the closed-form failure trace. -/
theorem runAux_eq_failTraceFrom (cfg : ClientConfig) (cbs : ClientCallbacks)
    (k : Nat) :
    ∀ fuel rc M, rc + fuel = cfg.maxRetries → 1 ≤ fuel → fuel ≤ M →
      runAux cfg cbs rc (List.replicate M (Episode.dialFail k)) =
        failTraceFrom cfg cbs k fuel rc := by
  intro fuel
  induction fuel with
  | zero => intro rc M _ h1 _; omega
  | succ f ih =>
      intro rc M hsum h1 hM
      obtain ⟨M2, rfl⟩ : ∃ M2, M = M2 + 1 := ⟨M - 1, by omega⟩
      rw [List.replicate_succ]
      rcases Nat.eq_zero_or_pos f with hf | hf
      · subst hf
        have hge : rc + 1 ≥ cfg.maxRetries := by omega
        simp [runAux, failTraceFrom, hge]
      · have hne : ¬ (rc + 1 ≥ cfg.maxRetries) := by omega
        have hf0 : ¬ (f = 0) := by omega
        simp only [runAux, failTraceFrom, if_neg hne, if_neg hf0]
        rw [ih (rc + 1) M2 (by omega) (by omega) (by omega)]

/-- The closed-form failure trace contains one dial attempt per unit of
fuel. -/
theorem countAttempts_failTraceFrom (cfg : ClientConfig)
    (cbs : ClientCallbacks) (k : Nat) :
    ∀ fuel rc, countAttempts (failTraceFrom cfg cbs k fuel rc) = fuel := by
  intro fuel
  induction fuel with
  | zero => intro rc; simp [failTraceFrom, countAttempts]
  | succ f ih =>
      intro rc
      rcases Nat.eq_zero_or_pos f with hf | hf
      · subst hf
        cases he : cbs.onError <;>
          simp [failTraceFrom, countAttempts, Event.isDialAttempt, he,
            List.countP_cons, List.countP_append]
      · have hf0 : ¬ (f = 0) := by omega
        have hih := ih (rc + 1)
        cases he : cbs.onError <;>
          simp [failTraceFrom, countAttempts, Event.isDialAttempt, he, hf0,
            List.countP_cons, List.countP_append] at hih ⊢ <;>
          omega

/-- `waitDurations` distributes over list append. -/
theorem waitDurations_append (a b : List Event) :
    waitDurations (a ++ b) = waitDurations a ++ waitDurations b := by
  simp [waitDurations, List.filterMap_append]

/-- `waitDurations` on a cons: a `wait` event contributes its duration,
every other event contributes nothing. -/
theorem waitDurations_cons (ev : Event) (l : List Event) :
    waitDurations (ev :: l) =
      (match ev with | Event.wait d => [d] | _ => []) ++ waitDurations l := by
  cases ev <;> simp [waitDurations]

/-- The waits of the closed-form failure trace are
`(rc + 1) * interval, (rc + 2) * interval, ...` in order. -/
theorem waitDurations_failTraceFrom (cfg : ClientConfig)
    (cbs : ClientCallbacks) (k : Nat) :
    ∀ fuel rc, waitDurations (failTraceFrom cfg cbs k fuel rc) =
      (List.range (fuel - 1)).map (fun i => (rc + 1 + i) * cfg.retryInterval) := by
  intro fuel
  induction fuel with
  | zero => intro rc; simp [failTraceFrom, waitDurations]
  | succ f ih =>
      intro rc
      rw [failTraceFrom]
      rcases Nat.eq_zero_or_pos f with hf | hf
      · subst hf
        cases he : cbs.onError <;>
          simp [waitDurations_cons, waitDurations_append, waitDurations, he]
      · have hf0 : ¬ (f = 0) := by omega
        obtain ⟨f2, rfl⟩ : ∃ f2, f = f2 + 1 := ⟨f - 1, by omega⟩
        have hih := ih (rc + 1)
        cases he : cbs.onError <;>
          simp only [he, Bool.false_eq_true, Bool.true_eq_false, if_neg hf0,
            if_false, if_true, waitDurations_cons, waitDurations_append,
            List.nil_append, List.cons_append, ite_false, ite_true] <;>
        · rw [hih, show (f2 + 1 + 1 - 1) = f2 + 1 from rfl,
            show (f2 + 1 - 1) = f2 from rfl, List.range_succ_eq_map]
          simp only [List.map_cons, List.map_map, List.nil_append]
          refine congrArg₂ _ (by simp) (List.map_congr_left ?_)
          intro a _
          simp only [Function.comp]
          rw [show rc + 1 + Nat.succ a = rc + 1 + 1 + a from by omega]

/-- With `onError` installed, the closed-form failure trace fires the
max-retries-exceeded error exactly once. -/
theorem countMaxRetriesErr_failTraceFrom (cfg : ClientConfig)
    (cbs : ClientCallbacks) (k : Nat) (hE : cbs.onError = true) :
    ∀ fuel rc, 1 ≤ fuel →
      countMaxRetriesErr (failTraceFrom cfg cbs k fuel rc) = 1 := by
  intro fuel
  induction fuel with
  | zero => intro rc h; omega
  | succ f ih =>
      intro rc _
      rw [failTraceFrom]
      rcases Nat.eq_zero_or_pos f with hf | hf
      · subst hf
        simp [countMaxRetriesErr, hE, Event.isMaxRetriesErr, List.countP_cons,
          List.countP_append]
      · have hf0 : ¬ (f = 0) := by omega
        have hih := ih (rc + 1) (by omega)
        simp [countMaxRetriesErr, hE, Event.isMaxRetriesErr, hf0,
          List.countP_cons, List.countP_append] at hih ⊢
        omega

/-- Claim C1: with `maxRetries = N ≥ 1` and a dial that always fails
(here: at least `N` failing episodes available), the session makes
exactly `N` dial attempts, waits `k * retryInterval` between attempt `k`
and attempt `k + 1` for `k = 1 .. N - 1`, fires the max-retries-exceeded
error via `onError` exactly once, and then stops permanently (offering
further failing episodes changes nothing: the trace equals the one
produced from exactly `N` episodes, and equals the closed-form linear
backoff trace). -/
theorem c1_linear_backoff_exhaustion
    (cfg : ClientConfig) (cbs : ClientCallbacks) (k M : Nat)
    (hN : 1 ≤ cfg.maxRetries) (hM : cfg.maxRetries ≤ M)
    (hE : cbs.onError = true) :
    run cfg cbs (List.replicate M (Episode.dialFail k)) =
        failTraceFrom cfg cbs k cfg.maxRetries 0 ∧
    countAttempts (run cfg cbs (List.replicate M (Episode.dialFail k))) =
        cfg.maxRetries ∧
    waitDurations (run cfg cbs (List.replicate M (Episode.dialFail k))) =
        (List.range (cfg.maxRetries - 1)).map
          (fun i => (i + 1) * cfg.retryInterval) ∧
    countMaxRetriesErr (run cfg cbs (List.replicate M (Episode.dialFail k))) = 1 ∧
    run cfg cbs (List.replicate M (Episode.dialFail k)) =
        run cfg cbs (List.replicate cfg.maxRetries (Episode.dialFail k)) := by
  have h0 : run cfg cbs (List.replicate M (Episode.dialFail k)) =
      failTraceFrom cfg cbs k cfg.maxRetries 0 :=
    runAux_eq_failTraceFrom cfg cbs k cfg.maxRetries 0 M (by omega) hN hM
  have h0b : run cfg cbs (List.replicate cfg.maxRetries (Episode.dialFail k)) =
      failTraceFrom cfg cbs k cfg.maxRetries 0 :=
    runAux_eq_failTraceFrom cfg cbs k cfg.maxRetries 0 cfg.maxRetries
      (by omega) hN (Nat.le_refl _)
  refine ⟨h0, ?_, ?_, ?_, ?_⟩
  · rw [h0, countAttempts_failTraceFrom]
  · rw [h0, waitDurations_failTraceFrom]
    exact List.map_congr_left (fun a _ => by
      rw [show 0 + 1 + a = a + 1 from by omega])
  · rw [h0, countMaxRetriesErr_failTraceFrom cfg cbs k hE cfg.maxRetries 0 hN]
  · rw [h0, h0b]

/-- Witness for C1 at `maxRetries = 2`, `retryInterval = 1s`, three
failing episodes on offer: two attempts, one wait of `1 * retryInterval`,
one max-retries-exceeded error. -/
theorem c1_witness :
    1 ≤ (NewClientConfig 1 2).maxRetries ∧
    countAttempts (run (NewClientConfig 1 2) allCallbacks
      (List.replicate 3 (Episode.dialFail 0))) = 2 ∧
    waitDurations (run (NewClientConfig 1 2) allCallbacks
      (List.replicate 3 (Episode.dialFail 0))) = [1 * second] ∧
    countMaxRetriesErr (run (NewClientConfig 1 2) allCallbacks
      (List.replicate 3 (Episode.dialFail 0))) = 1 :=
  have h := c1_linear_backoff_exhaustion (NewClientConfig 1 2) allCallbacks 0 3
    (by decide) (by decide) rfl
  ⟨by decide, h.2.1, by rw [h.2.2.1]; decide, h.2.2.2.1⟩

/-- Claim C2 counterexample: after the first `Start` (whose spawned `run`
may have stopped by exceeding `maxRetries` — the one-shot flag does not
depend on it), a subsequent call to `Start` does not spawn a new run:
`startOnce.Do` never fires again, so no new round of connection attempts
begins, contradicting the claim. -/
theorem c2_counterexample :
    Start (Start ClientState.init).1 = ((Start ClientState.init).1, false) := by
  rfl

/-- Claim C2 (amended): `Start` is one-shot.  Once the first call has
consumed `startOnce` (which the first call always does, spawning the only
`run`), every later call to `Start` — in particular one made after the
session stopped by exceeding `maxRetries` — is a no-op that spawns no new
round of connection attempts; the client cannot be restarted. -/
theorem c2_start_is_one_shot :
    (∀ s : ClientState, s.startOnceUsed = true → Start s = (s, false)) ∧
    (Start ClientState.init).2 = true ∧
    (Start ClientState.init).1.startOnceUsed = true := by
  refine ⟨?_, rfl, rfl⟩
  intro s hs
  simp [Start, hs]

/-- Witness for the amended C2: a client whose `startOnce` is consumed
gets a no-op from `Start`. -/
theorem c2_witness :
    Start { startOnceUsed := true, stopOnceUsed := false } =
      ({ startOnceUsed := true, stopOnceUsed := false }, false) :=
  c2_start_is_one_shot.1 { startOnceUsed := true, stopOnceUsed := false } rfl

/-- Claim C3 counterexample: it is not the case that every frame write of
the client (`Send` application frame, `ping` control frame, `closeConn`
close frame) happens while `writeMu` is held: the close-frame write in
`closeConn` happens under the connection-pointer mutex only. -/
theorem c3_counterexample :
    ((writesHolding LockId.writeMu
        (sendWriteTrace ++ pingWriteTrace ++ closeConnWriteTrace) false).all
      (fun p => p.2)) = false := by
  decide

/-- Claim C3 (amended): application-message writes in `Send` and
keepalive ping writes in `ping` do happen while holding `writeMu`, so
sends and pings are serialized against each other; but the close frame
written by `closeConn` is written while holding only the
connection-pointer mutex `mu`, not `writeMu`, so a close frame is not
serialized against a concurrent send or ping. -/
theorem c3_write_lock_discipline :
    writesHolding LockId.writeMu sendWriteTrace false =
        [(FrameKind.appMessage, true)] ∧
    writesHolding LockId.writeMu pingWriteTrace false =
        [(FrameKind.pingFrame, true)] ∧
    writesHolding LockId.writeMu closeConnWriteTrace false =
        [(FrameKind.closeFrame, false)] ∧
    writesHolding LockId.connMu closeConnWriteTrace false =
        [(FrameKind.closeFrame, true)] := by
  decide

/-- Claim C4: `Stop` is idempotent.  The first call emits exactly the
context cancellation, the force-close of any installed connection, the
join on the spawned goroutines and then — last — the `Stopped` callback;
a second call changes nothing and emits nothing, and `Stopped` fires
exactly once across both calls. -/
theorem c4_stop_idempotent (cbs : ClientCallbacks) (conn : Option Unit)
    (s : ClientState) (hs : s.stopOnceUsed = false) (hcb : cbs.stopped = true) :
    (Stop cbs conn s).2.2 =
      Event.cancelCtx :: (closeConn conn).2 ++ [Event.wgWait, Event.cbStopped] ∧
    Stop cbs (Stop cbs conn s).2.1 (Stop cbs conn s).1 =
      ((Stop cbs conn s).1, (Stop cbs conn s).2.1, []) ∧
    countStopped ((Stop cbs conn s).2.2 ++
      (Stop cbs (Stop cbs conn s).2.1 (Stop cbs conn s).1).2.2) = 1 := by
  cases conn <;>
    simp [Stop, closeConn, hs, hcb, countStopped, Event.isStopped,
      List.countP_cons, List.countP_append]

/-- Witness for C4: concrete double stop on a connected client fires
`Stopped` exactly once. -/
theorem c4_witness :
    countStopped ((Stop allCallbacks (some ()) ClientState.init).2.2 ++
      (Stop allCallbacks (Stop allCallbacks (some ()) ClientState.init).2.1
        (Stop allCallbacks (some ()) ClientState.init).1).2.2) = 1 :=
  (c4_stop_idempotent allCallbacks (some ()) ClientState.init rfl rfl).2.2

/-- Claim C5: when the read loop exits on a read failure, `OnDisconnect`
fires exactly when the lifecycle cancellation has not been raised (no
explicit stop); with an explicit stop no disconnect callback fires; and
in both cases the connection slot ends up cleared. -/
theorem c5_disconnect_iff_not_stopped (cbs : ClientCallbacks)
    (msgs : List (List Nat)) (k : Nat) (cancelled : Bool)
    (hD : cbs.onDisconnect = true) :
    (serveConn cbs msgs cancelled (Err.readFail k)).1 = none ∧
    (Event.cbOnDisconnect (Err.readFail k) ∈
        (serveConn cbs msgs cancelled (Err.readFail k)).2 ↔ cancelled = false) := by
  constructor
  · simp [serveConn, closeConn]
  · cases cancelled <;> cases hm : cbs.onMessage <;>
      simp [serveConn, closeConn, read, hD, hm, List.mem_append,
        List.mem_flatMap]

/-- Witness for C5: with messages delivered and a genuine (non-stop) read
failure, the disconnect callback fires and the connection is cleared. -/
theorem c5_witness :
    (serveConn allCallbacks [[1], [2]] false (Err.readFail 7)).1 = none ∧
    (Event.cbOnDisconnect (Err.readFail 7) ∈
        (serveConn allCallbacks [[1], [2]] false (Err.readFail 7)).2 ↔
      false = false) :=
  c5_disconnect_iff_not_stopped allCallbacks [[1], [2]] 7 false rfl

/-- Claim C6: `Send` returns the NotConnected error exactly when no
connection is installed; otherwise it delegates to the handle, returning
its write error unchanged on failure and nil (`ok`) on success. -/
theorem c6_send_delegation (conn : Option Unit) (w : Option Nat) :
    (Send conn w = SendOutcome.notConnected ↔ conn = none) ∧
    (∀ k, Send (some ()) w = SendOutcome.writeErr k ↔ w = some k) ∧
    (Send (some ()) w = SendOutcome.ok ↔ w = none) := by
  refine ⟨?_, ?_, ?_⟩
  · cases conn <;> cases w <;> simp [Send]
  · intro k2; cases w <;> simp [Send]
  · cases w <;> simp [Send]

/-- Claim C7: `retryCount` is reset to 0 on every successful connect
(whatever its previous value) and incremented on every failed dial
attempt, so backoff never compounds across failure episodes: whatever
`retryCount = rc` an earlier episode had reached, after a successful
connect-and-disconnect the wait following the next dial failure is
`1 * retryInterval`. -/
theorem c7_retry_reset_no_compounding (cfg : ClientConfig)
    (cbs : ClientCallbacks) (h2 : 2 ≤ cfg.maxRetries) :
    (∀ (rc : Nat) (msgs : List (List Nat)) (k : Nat) (rest : List Episode),
      runAux cfg cbs rc (Episode.dialOk msgs k false :: rest) =
        Event.dialAttempt :: (subscribeOkEvents cbs ++
          (serveConn cbs msgs false (Err.readFail k)).2 ++
          runAux cfg cbs 0 rest)) ∧
    (∀ (rc k : Nat) (rest : List Episode), rc + 1 < cfg.maxRetries →
      runAux cfg cbs rc (Episode.dialFail k :: rest) =
        Event.dialAttempt ::
          ((if cbs.onError then [Event.cbOnError (Err.dial k)] else []) ++
            (Event.wait ((rc + 1) * cfg.retryInterval) ::
              runAux cfg cbs (rc + 1) rest))) ∧
    (∀ (rc : Nat) (msgs : List (List Nat)) (k e : Nat) (rest : List Episode),
      runAux cfg cbs rc
          (Episode.dialOk msgs k false :: Episode.dialFail e :: rest) =
        Event.dialAttempt :: (subscribeOkEvents cbs ++
          (serveConn cbs msgs false (Err.readFail k)).2 ++
          (Event.dialAttempt ::
            ((if cbs.onError then [Event.cbOnError (Err.dial e)] else []) ++
              (Event.wait (1 * cfg.retryInterval) ::
                runAux cfg cbs 1 rest))))) := by
  refine ⟨?_, ?_, ?_⟩
  · intro rc msgs k rest
    simp [runAux]
  · intro rc k rest h
    simp [runAux, Nat.not_le.2 h]
  · intro rc msgs k e rest
    have h1 : ¬ (0 + 1 ≥ cfg.maxRetries) := by omega
    simp [runAux, h1]

/-- Witness for C7: with an earlier failure count of 5, one successful
connect then a dial failure waits only `1 * retryInterval`. -/
theorem c7_witness :
    runAux (NewClientConfig 1 2) allCallbacks 5
        (Episode.dialOk [] 0 false :: Episode.dialFail 1 :: []) =
      Event.dialAttempt :: (subscribeOkEvents allCallbacks ++
        (serveConn allCallbacks [] false (Err.readFail 0)).2 ++
        (Event.dialAttempt ::
          ((if allCallbacks.onError then
              [Event.cbOnError (Err.dial 1)] else []) ++
            (Event.wait (1 * (NewClientConfig 1 2).retryInterval) ::
              runAux (NewClientConfig 1 2) allCallbacks 1 [])))) :=
  (c7_retry_reset_no_compounding (NewClientConfig 1 2) allCallbacks
    (by decide)).2.2 5 [] 0 1 []

/-- Every event the keepalive loop can emit is either a ping write with
empty payload or an `OnError` firing with a write-failure error. -/
theorem ping_events_shape (cbs : ClientCallbacks) :
    ∀ (ticks : List TickObs) (ev : Event), ev ∈ ping cbs ticks →
      ev = Event.pingWrite [] ∨
        ∃ k2, ev = Event.cbOnError (Err.writeFail k2) := by
  intro ticks
  induction ticks with
  | nil => intro ev h; simp [ping] at h
  | cons t rest ih =>
      intro ev h
      cases t with
      | ctxDone => simp [ping] at h
      | tick conn w =>
          cases conn with
          | none => exact ih ev (by simpa [ping] using h)
          | some u =>
              cases w with
              | none =>
                  rcases List.mem_cons.mp (by simpa [ping] using h) with h1 | h1
                  · exact Or.inl h1
                  · exact ih ev h1
              | some k2 =>
                  cases he : cbs.onError <;> simp [ping, he] at h
                  · exact Or.inl h
                  · rcases h with h | h
                    · exact Or.inl h
                    · exact Or.inr ⟨k2, h⟩

/-- Claim C8: the keepalive sub-task runs on a period of
`readTimeout / 2`; every ping it writes has an empty payload; a received
pong refreshes the read deadline to `now + readTimeout`; a ping write
failure fires `OnError` and ends the sub-task at once (later ticks are
never processed), and the keepalive never itself disconnects, closes the
connection, or redials. -/
theorem c8_keepalive (cfg : ClientConfig) (cbs : ClientCallbacks)
    (ticks : List TickObs) (k now : Nat) (rest : List TickObs)
    (hE : cbs.onError = true) :
    pingPeriod cfg = cfg.readTimeout / 2 ∧
    pongHandler cfg now = now + cfg.readTimeout ∧
    (∀ p, Event.pingWrite p ∈ ping cbs ticks → p = []) ∧
    ping cbs (TickObs.tick (some ()) (some k) :: rest) =
      [Event.pingWrite [], Event.cbOnError (Err.writeFail k)] ∧
    (∀ e, Event.cbOnDisconnect e ∉ ping cbs ticks) ∧
    Event.closeFrameWrite ∉ ping cbs ticks ∧
    Event.dialAttempt ∉ ping cbs ticks := by
  refine ⟨rfl, rfl, ?_, ?_, ?_, ?_, ?_⟩
  · intro p h
    rcases ping_events_shape cbs ticks _ h with h1 | ⟨k2, h1⟩
    · injection h1
    · simp at h1
  · simp [ping, hE]
  · intro e h
    rcases ping_events_shape cbs ticks _ h with h1 | ⟨k2, h1⟩ <;> simp at h1
  · intro h
    rcases ping_events_shape cbs ticks _ h with h1 | ⟨k2, h1⟩ <;> simp at h1
  · intro h
    rcases ping_events_shape cbs ticks _ h with h1 | ⟨k2, h1⟩ <;> simp at h1

/-- Witness for C8: a failing ping write at the first tick emits the
ping attempt and one `OnError`, then the sub-task is over. -/
theorem c8_witness :
    ping allCallbacks [TickObs.tick (some ()) (some 3)] =
      [Event.pingWrite [], Event.cbOnError (Err.writeFail 3)] :=
  (c8_keepalive (NewClientConfig 1 2) allCallbacks [] 3 0 [] rfl).2.2.2.1

/-- `guardedInvokes` holds of an empty trace. -/
theorem guardedInvokes_nil (cbs : ClientCallbacks) :
    guardedInvokes cbs [] = true := rfl

/-- `guardedInvokes` distributes over append. -/
theorem guardedInvokes_append (cbs : ClientCallbacks) (a b : List Event) :
    guardedInvokes cbs (a ++ b) =
      (guardedInvokes cbs a && guardedInvokes cbs b) := by
  simp [guardedInvokes, List.all_append]

/-- `guardedInvokes` on a cons peels the head event. -/
theorem guardedInvokes_cons (cbs : ClientCallbacks) (ev : Event)
    (l : List Event) :
    guardedInvokes cbs (ev :: l) =
      ((match ev.invokes with
        | none => true
        | some n => cbInstalled cbs n) && guardedInvokes cbs l) := by
  simp [guardedInvokes]

/-- The per-message dispatches of the read loop only invoke installed
handlers. -/
theorem guardedInvokes_msgs (cbs : ClientCallbacks) (msgs : List (List Nat)) :
    guardedInvokes cbs (msgs.flatMap fun m =>
      if cbs.onMessage then [Event.cbOnMessage m] else []) = true := by
  induction msgs with
  | nil => rfl
  | cons m rest ih =>
      rw [List.flatMap_cons, guardedInvokes_append, ih]
      cases hm : cbs.onMessage <;>
        simp [hm, guardedInvokes_cons, guardedInvokes_nil, Event.invokes,
          cbInstalled]

/-- The read loop only invokes installed handlers. -/
theorem guardedInvokes_read (cbs : ClientCallbacks) (conn : Option Unit)
    (msgs : List (List Nat)) (cancelled : Bool) (e : Err) :
    guardedInvokes cbs (read cbs conn msgs cancelled e) = true := by
  cases conn with
  | none => rfl
  | some u =>
      rw [read, guardedInvokes_append, guardedInvokes_msgs]
      cases hd : cbs.onDisconnect <;> cases cancelled <;>
        simp [hd, guardedInvokes_cons, guardedInvokes_nil, Event.invokes,
          cbInstalled]

/-- The success path of `subscribe` only invokes installed handlers. -/
theorem guardedInvokes_subscribeOk (cbs : ClientCallbacks) :
    guardedInvokes cbs (subscribeOkEvents cbs) = true := by
  cases hs : cbs.started <;> cases hc : cbs.onConnect <;>
    simp [subscribeOkEvents, guardedInvokes_append, guardedInvokes_cons,
      guardedInvokes_nil, Event.invokes, cbInstalled, hs, hc]

/-- `closeConn` emits no callback invocation at all. -/
theorem guardedInvokes_closeConn (cbs : ClientCallbacks)
    (conn : Option Unit) :
    guardedInvokes cbs (closeConn conn).2 = true := by
  cases conn <;>
    simp [closeConn, guardedInvokes_cons, guardedInvokes_nil, Event.invokes]

/-- The serve phase only invokes installed handlers. -/
theorem guardedInvokes_serveConn (cbs : ClientCallbacks)
    (msgs : List (List Nat)) (cancelled : Bool) (e : Err) :
    guardedInvokes cbs (serveConn cbs msgs cancelled e).2 = true := by
  rw [serveConn]
  simp only [guardedInvokes_append, guardedInvokes_read,
    guardedInvokes_closeConn, Bool.and_self]

/-- `run` only invokes installed handlers, from any retry count. -/
theorem guardedInvokes_runAux (cfg : ClientConfig) (cbs : ClientCallbacks) :
    ∀ (es : List Episode) (rc : Nat),
      guardedInvokes cbs (runAux cfg cbs rc es) = true := by
  intro es
  induction es with
  | nil => intro rc; rfl
  | cons ep rest ih =>
      intro rc
      cases ep with
      | dialFail k =>
          by_cases hc : rc + 1 ≥ cfg.maxRetries <;>
            cases he : cbs.onError <;>
              simp [runAux, hc, he, guardedInvokes_cons, guardedInvokes_append,
                guardedInvokes_nil, Event.invokes, cbInstalled, ih (rc + 1)]
      | dialOk msgs k cancelled =>
          cases cancelled <;>
            simp [runAux, guardedInvokes_cons, guardedInvokes_append,
              guardedInvokes_nil, guardedInvokes_subscribeOk,
              guardedInvokes_serveConn, Event.invokes, ih 0]

/-- The keepalive loop only invokes installed handlers. -/
theorem guardedInvokes_ping (cbs : ClientCallbacks) :
    ∀ ticks : List TickObs, guardedInvokes cbs (ping cbs ticks) = true := by
  intro ticks
  induction ticks with
  | nil => rfl
  | cons t rest ih =>
      cases t with
      | ctxDone => rfl
      | tick conn w =>
          cases conn with
          | none => simpa [ping] using ih
          | some u =>
              cases w with
              | none =>
                  simp [ping, guardedInvokes_cons, Event.invokes, ih]
              | some k =>
                  cases he : cbs.onError <;>
                    simp [ping, he, guardedInvokes_cons, guardedInvokes_nil,
                      Event.invokes, cbInstalled]

/-- `Stop` only invokes installed handlers. -/
theorem guardedInvokes_stop (cbs : ClientCallbacks) (conn : Option Unit)
    (s : ClientState) :
    guardedInvokes cbs (Stop cbs conn s).2.2 = true := by
  by_cases hst : s.stopOnceUsed <;> cases conn <;> cases hsb : cbs.stopped <;>
    simp [Stop, closeConn, hst, hsb, guardedInvokes_cons, guardedInvokes_append,
      guardedInvokes_nil, Event.invokes, cbInstalled]

/-- Claim C9: constructing a client with a nil callback set substitutes
the empty set (and a provided set is kept as is), and every dispatch
point of `run`, `ping` and `Stop` checks its callback before invoking it,
so no execution ever invokes an uninstalled (nil) handler, whatever
subset of callbacks is unset. -/
theorem c9_no_nil_callback_invocation :
    NewClient none = ClientCallbacks.empty ∧
    (∀ cb : ClientCallbacks, NewClient (some cb) = cb) ∧
    (∀ (cfg : ClientConfig) (cbs : ClientCallbacks) (es : List Episode),
      guardedInvokes cbs (run cfg cbs es) = true) ∧
    (∀ (cbs : ClientCallbacks) (ticks : List TickObs),
      guardedInvokes cbs (ping cbs ticks) = true) ∧
    (∀ (cbs : ClientCallbacks) (conn : Option Unit) (s : ClientState),
      guardedInvokes cbs (Stop cbs conn s).2.2 = true) :=
  ⟨rfl, fun _ => rfl,
    fun cfg cbs es => guardedInvokes_runAux cfg cbs es 0,
    fun cbs ticks => guardedInvokes_ping cbs ticks,
    fun cbs conn s => guardedInvokes_stop cbs conn s⟩

/-- `countStarted` of the empty trace. -/
theorem countStarted_nil : countStarted [] = 0 := rfl

/-- `countStarted` distributes over append. -/
theorem countStarted_append (a b : List Event) :
    countStarted (a ++ b) = countStarted a + countStarted b := by
  simp [countStarted, List.countP_append]

/-- `countStarted` on a cons peels the head event. -/
theorem countStarted_cons (ev : Event) (l : List Event) :
    countStarted (ev :: l) =
      countStarted l + (if ev.isStarted then 1 else 0) := by
  simp [countStarted, List.countP_cons]

/-- The per-message dispatches of the read loop fire no `Started`. -/
theorem countStarted_msgs (cbs : ClientCallbacks) (msgs : List (List Nat)) :
    countStarted (msgs.flatMap fun m =>
      if cbs.onMessage then [Event.cbOnMessage m] else []) = 0 := by
  induction msgs with
  | nil => rfl
  | cons m rest ih =>
      rw [List.flatMap_cons, countStarted_append, ih]
      cases hm : cbs.onMessage <;>
        simp [hm, countStarted_cons, countStarted_nil, Event.isStarted]

/-- The success path of `subscribe` fires `Started` exactly when it is
installed. -/
theorem countStarted_subscribeOk (cbs : ClientCallbacks) :
    countStarted (subscribeOkEvents cbs) = if cbs.started then 1 else 0 := by
  cases hs : cbs.started <;> cases hc : cbs.onConnect <;>
    simp [subscribeOkEvents, countStarted, Event.isStarted, hs, hc,
      List.countP_cons, List.countP_append]

/-- The serve phase fires no `Started`. -/
theorem countStarted_serveConn (cbs : ClientCallbacks)
    (msgs : List (List Nat)) (cancelled : Bool) (e : Err) :
    countStarted (serveConn cbs msgs cancelled e).2 = 0 := by
  cases hd : cbs.onDisconnect <;> cases cancelled <;>
    simp [serveConn, read, closeConn, countStarted_append, countStarted_cons,
      countStarted_msgs, countStarted_nil, Event.isStarted, hd]

/-- Over a schedule of successful, externally-uncancelled dials, `run`
fires `Started` once per dial, from any retry count. -/
theorem countStarted_runAux_ok (cfg : ClientConfig) (cbs : ClientCallbacks)
    (hS : cbs.started = true) :
    ∀ (ps : List (List (List Nat) × Nat)) (rc : Nat),
      countStarted (runAux cfg cbs rc
        (ps.map fun p => Episode.dialOk p.1 p.2 false)) = ps.length := by
  intro ps
  induction ps with
  | nil => intro rc; rfl
  | cons p rest ih =>
      intro rc
      simp only [List.map_cons]
      rw [runAux]
      simp [countStarted_cons, countStarted_append, countStarted_subscribeOk,
        countStarted_serveConn, hS, Event.isStarted, ih 0]
      omega

/-- Over a schedule of failing dials, `run` never fires `Started`. -/
theorem countStarted_runAux_fail (cfg : ClientConfig) (cbs : ClientCallbacks)
    (k : Nat) :
    ∀ (M rc : Nat),
      countStarted (runAux cfg cbs rc
        (List.replicate M (Episode.dialFail k))) = 0 := by
  intro M
  induction M with
  | zero => intro rc; rfl
  | succ M2 ih =>
      intro rc
      rw [List.replicate_succ, runAux]
      by_cases hc : rc + 1 ≥ cfg.maxRetries
      · cases he : cbs.onError <;>
          simp [hc, he, countStarted_cons, countStarted_append,
            countStarted_nil, Event.isStarted]
      · cases he : cbs.onError <;>
          simp [hc, he, countStarted_cons, countStarted_append,
            countStarted_nil, Event.isStarted, ih (rc + 1)]

/-- Claim C10: with the `Started` handler installed, `Started` fires once
per successful dial — a reconnect fires it again, a session whose dials
all fail never fires it — and on each successful dial it fires before the
connection is installed (`setConn`) and before `OnConnect`. -/
theorem c10_started_per_successful_dial (cfg : ClientConfig)
    (cbs : ClientCallbacks) (hS : cbs.started = true) :
    (∀ ps : List (List (List Nat) × Nat),
      countStarted (run cfg cbs
        (ps.map fun p => Episode.dialOk p.1 p.2 false)) = ps.length) ∧
    (∀ k M, countStarted (run cfg cbs
        (List.replicate M (Episode.dialFail k))) = 0) ∧
    subscribeOkEvents cbs =
      Event.cbStarted :: Event.setConn :: Event.setReadDeadline ::
        (if cbs.onConnect then [Event.cbOnConnect] else []) := by
  refine ⟨fun ps => countStarted_runAux_ok cfg cbs hS ps 0,
    fun k M => countStarted_runAux_fail cfg cbs k M 0, ?_⟩
  simp [subscribeOkEvents, hS]

/-- Witness for C10: two successful dials (a connect and a reconnect)
fire `Started` twice. -/
theorem c10_witness :
    countStarted (run (NewClientConfig 1 2) allCallbacks
      (([([[5]], 0), ([], 1)] : List (List (List Nat) × Nat)).map
        fun p => Episode.dialOk p.1 p.2 false)) = 2 :=
  (c10_started_per_successful_dial (NewClientConfig 1 2) allCallbacks rfl).1
    [([[5]], 0), ([], 1)]

end WsClient
